import Mathlib

/-!
Verification of the ajime-agent supervisor subsystem.

Shallow embedding, in Lean, of the parts of the agent source that the
verified properties concern:

* `calc_exp_backoff` and `CooldownOptions` from `src/agent/src/utils.rs`
  (seconds are modelled as rationals; the source computes in `f64` over
  values on which the computation is exact for the facts proved here).
* The deployment finite state machine from `src/agent/src/deploy/fsm.rs`.
  The Rust method `DeploymentFsm::process(&mut self, …)` is modelled as a
  pure function returning the updated machine together with the `Result`;
  the invalid-transition arm returns the machine unchanged, exactly as the
  early `return Err(…)` in the source leaves `self` untouched.
* The workflow cache from `src/agent/src/cache/workflow.rs`.  The
  `HashMap<String, WorkflowCacheEntry>` is modelled as an association list
  with unique keys; `SystemTime::now()` inside `insert` becomes an explicit
  `now` argument.
* `Syncer::trigger_sync` from `src/agent/src/sync/syncer.rs`.  Instants
  (`chrono::DateTime<Utc>`) are rationals (Unix seconds); the three
  `Utc::now()` calls of one invocation are modelled as a single instant;
  the network-performing `sync_impl` is abstracted as a function argument
  from the cache to the resulting cache and `Result`.
* `ShutdownManager::shutdown_impl` from `src/agent/src/app/run.rs`.  Each
  `JoinHandle` is modelled by the value its `.await` would produce; the
  function returns the list of workers joined, in order, together with the
  overall `Result`, and the `?` early-return semantics of the source is
  modelled by a continuation-passing join step.
* The relay file operations `write_file`/`read_file` from
  `src/agent/src/filesys/relay.rs` together with the strict, canonical
  Base64 codec used there (the `base64` crate `STANDARD` engine: padding
  required, trailing bits must be zero).  The filesystem is an association
  list from paths to byte lists; bytes are naturals below 256.
-/

/-! ## Exponential backoff (`src/agent/src/utils.rs`) -/

/-- Cooldown options for exponential backoff (`CooldownOptions` in
`utils.rs`).  Durations are in seconds; `base_delay` and `max_delay` are
`Duration` in the source (hence non-negative), `multiplier` is `f64`. -/
structure CooldownOptions where
  base_delay : ℚ
  max_delay : ℚ
  multiplier : ℚ
deriving DecidableEq

/-- `CooldownOptions::default()`: base 1 s, max 300 s, multiplier 2. -/
def CooldownOptions.default : CooldownOptions :=
  { base_delay := 1, max_delay := 300, multiplier := 2 }

/-- `calc_exp_backoff` from `utils.rs`:
`delay_secs = base_delay * multiplier.powi(attempt as i32)` capped by
`delay_secs.min(max_delay)`.  `attempt` is a `u32` (hence the `% 2 ^ 32`,
under which the source's values are fixed) and the `as i32` cast wraps:
a value of `2 ^ 31` or more becomes the negative `attempt - 2 ^ 32`, and
`powi` of a negative exponent is the reciprocal power — `zpow` over ℚ,
exact for the multipliers and exponents the proved facts exercise. -/
def calc_exp_backoff (options : CooldownOptions) (attempt : ℕ) : ℚ :=
  let a32 : ℕ := attempt % 2 ^ 32
  let exponent : ℤ := if a32 < 2 ^ 31 then (a32 : ℤ) else (a32 : ℤ) - 2 ^ 32
  min (options.base_delay * options.multiplier ^ exponent) options.max_delay

/-! ## Deployment FSM (`src/agent/src/deploy/fsm.rs`) -/

/-- `DeploymentState` from `fsm.rs`. -/
inductive DeploymentState where
  | pending
  | deploying
  | deployed
  | running
  | paused
  | failed
  | stopped
deriving DecidableEq

/-- `DeploymentEvent` from `fsm.rs`. -/
inductive DeploymentEvent where
  | deploy
  | deploySuccess
  | deployFailed (err : String)
  | start
  | pause
  | resume
  | stop
  | complete
  | error (err : String)
  | reset
deriving DecidableEq

/-- The `Debug` rendering of a `DeploymentState`, as used by the
invalid-transition error message. -/
def debugState : DeploymentState → String
  | .pending => "Pending"
  | .deploying => "Deploying"
  | .deployed => "Deployed"
  | .running => "Running"
  | .paused => "Paused"
  | .failed => "Failed"
  | .stopped => "Stopped"

/-- The `Debug` rendering of a `DeploymentEvent` (payload strings are
quoted; escape sequences inside payloads are not reproduced — no proved
property depends on the message text). -/
def debugEvent : DeploymentEvent → String
  | .deploy => "Deploy"
  | .deploySuccess => "DeploySuccess"
  | .deployFailed err => "DeployFailed(\"" ++ err ++ "\")"
  | .start => "Start"
  | .pause => "Pause"
  | .resume => "Resume"
  | .stop => "Stop"
  | .complete => "Complete"
  | .error err => "Error(\"" ++ err ++ "\")"
  | .reset => "Reset"

/-- `DeploymentFsm` from `fsm.rs`: current state, last error, retry count. -/
structure DeploymentFsm where
  state : DeploymentState
  error : Option String
  retry_count : ℕ
deriving DecidableEq

/-- `DeploymentFsm::new()`: pending, no error, zero retries. -/
def DeploymentFsm.new : DeploymentFsm :=
  { state := .pending, error := none, retry_count := 0 }

/-- `DeploymentFsm::process(&mut self, event)`.  The returned pair is the
machine after the call together with the `Result<(), String>`; the
invalid-transition arm performs no mutation before its early `return Err`,
so it yields the machine unchanged. -/
def DeploymentFsm.process (f : DeploymentFsm) (event : DeploymentEvent) :
    DeploymentFsm × Except String Unit :=
  match f.state, event with
  | .pending, .deploy =>
      ({ f with error := none, state := .deploying }, .ok ())
  | .deploying, .deploySuccess =>
      ({ f with retry_count := 0, state := .deployed }, .ok ())
  | .deploying, .deployFailed err =>
      ({ f with error := some err, retry_count := f.retry_count + 1,
                state := .failed }, .ok ())
  | .deployed, .start => ({ f with state := .running }, .ok ())
  | .deployed, .deploy => ({ f with state := .deploying }, .ok ())
  | .running, .pause => ({ f with state := .paused }, .ok ())
  | .running, .stop => ({ f with state := .stopped }, .ok ())
  | .running, .complete => ({ f with state := .deployed }, .ok ())
  | .running, .error err =>
      ({ f with error := some err, state := .failed }, .ok ())
  | .paused, .resume => ({ f with state := .running }, .ok ())
  | .paused, .stop => ({ f with state := .stopped }, .ok ())
  | .failed, .deploy =>
      ({ f with error := none, state := .deploying }, .ok ())
  | .failed, .reset =>
      ({ f with error := none, retry_count := 0, state := .pending }, .ok ())
  | .stopped, .start => ({ f with state := .running }, .ok ())
  | .stopped, .deploy => ({ f with state := .deploying }, .ok ())
  | .stopped, .reset =>
      ({ f with error := none, state := .pending }, .ok ())
  | s, ev =>
      (f, .error ("Invalid transition: " ++ debugState s ++ " -> " ++ debugEvent ev))

/-- `DeploymentFsm::can_retry(max_retries)`:
`state == Failed && retry_count < max_retries`. -/
def DeploymentFsm.can_retry (f : DeploymentFsm) (max_retries : ℕ) : Bool :=
  decide (f.state = .failed) && decide (f.retry_count < max_retries)

/-- Feed a sequence of events to the machine, as the unit tests do with
repeated `fsm.process(e).unwrap()`: `none` if any step returns an error. -/
def DeploymentFsm.processAll (f : DeploymentFsm) :
    List DeploymentEvent → Option DeploymentFsm
  | [] => some f
  | e :: rest =>
    match f.process e with
    | (f2, .ok _) => f2.processAll rest
    | (_, .error _) => none

/-! ## Workflow model (`src/agent/src/models/workflow.rs`) -/

/-- `WorkflowStatus` from `models/workflow.rs`. -/
inductive WorkflowStatus where
  | draft
  | active
  | pausedStatus
  | archived
deriving DecidableEq

/-- A port on a node (`Port` in `models/workflow.rs`). -/
structure Port where
  id : String
  name : String
  port_type : String
deriving DecidableEq

/-- A node of the workflow graph (`Node` in `models/workflow.rs`).  The
UI position (`f64` pair) and the free-form JSON configuration are opaque
to every verified operation and are modelled as uninterpreted strings. -/
structure Node where
  id : String
  node_type : String
  label : Option String
  position : Option String
  data : String
  inputs : List Port
  outputs : List Port
deriving DecidableEq

/-- An edge of the workflow graph (`Edge` in `models/workflow.rs`). -/
structure Edge where
  id : String
  source : String
  source_handle : Option String
  target : String
  target_handle : Option String
deriving DecidableEq

/-- `GraphData` from `models/workflow.rs`. -/
structure GraphData where
  nodes : List Node
  edges : List Edge
deriving DecidableEq

/-- `Workflow` from `models/workflow.rs`. -/
structure Workflow where
  id : String
  name : String
  description : Option String
  owner_id : String
  status : WorkflowStatus
  graph_data : GraphData
  logic_hash : Option String
  created_at : String
  updated_at : String
deriving DecidableEq

/-! ## Workflow cache (`src/agent/src/cache/workflow.rs`) -/

/-- `WorkflowCacheEntry` from `cache/workflow.rs`; `cached_at` is Unix
seconds (`u64` in the source). -/
structure WorkflowCacheEntry where
  workflow : Workflow
  digest : String
  cached_at : ℕ
deriving DecidableEq

/-- `WorkflowCache`: the `HashMap<String, WorkflowCacheEntry>` behind the
lock is modelled as an association list whose keys are unique (the
`RwLock` is irrelevant to the sequential properties proved here). -/
structure WorkflowCache where
  entries : List (String × WorkflowCacheEntry)
  capacity : ℕ
deriving DecidableEq

/-- `WorkflowCache::new(capacity)`. -/
def WorkflowCache.new (capacity : ℕ) : WorkflowCache :=
  { entries := [], capacity := capacity }

/-- Remove every binding of a key (a `HashMap` holds at most one). -/
def eraseEntry (id : String) (l : List (String × WorkflowCacheEntry)) :
    List (String × WorkflowCacheEntry) :=
  l.filter (fun p => p.1 != id)

/-- `entries.iter().min_by_key(|(_, e)| e.cached_at)`: the first binding
with minimal `cached_at` (the map iteration order is arbitrary in the
source, and ties are broken arbitrarily). -/
def minEntry : List (String × WorkflowCacheEntry) →
    Option (String × WorkflowCacheEntry)
  | [] => none
  | p :: rest =>
    match minEntry rest with
    | none => some p
    | some q => if q.2.cached_at < p.2.cached_at then some q else some p

/-- `WorkflowCache::get(workflow_id)`. -/
def WorkflowCache.get (c : WorkflowCache) (workflow_id : String) :
    Option WorkflowCacheEntry :=
  (c.entries.find? (fun p => p.1 == workflow_id)).map (fun p => p.2)

/-- `WorkflowCache::len()`. -/
def WorkflowCache.len (c : WorkflowCache) : ℕ :=
  c.entries.length

/-- `WorkflowCache::insert(workflow, digest)`; `SystemTime::now()` inside
the source becomes the explicit `now` argument.  When `len() >= capacity`
the binding with minimal `cached_at` is removed, then the new entry is
stored under `workflow.id` (overwriting any existing binding). -/
def WorkflowCache.insert (c : WorkflowCache) (workflow : Workflow)
    (digest : String) (now : ℕ) : WorkflowCache :=
  let entries :=
    if c.capacity ≤ c.entries.length then
      match minEntry c.entries with
      | some oldest => eraseEntry oldest.1 c.entries
      | none => c.entries
    else c.entries
  let entry : WorkflowCacheEntry :=
    { workflow := workflow, digest := digest, cached_at := now }
  { c with entries := eraseEntry workflow.id entries ++ [(workflow.id, entry)] }

/-- `WorkflowCache::remove(workflow_id)` (the removed entry itself is not
needed by any verified property). -/
def WorkflowCache.remove (c : WorkflowCache) (workflow_id : String) :
    WorkflowCache :=
  { c with entries := eraseEntry workflow_id c.entries }

/-! ## Agent errors (`src/agent/src/errors.rs`, restricted to the variants
the modelled code constructs) -/

/-- The `AgentError` variants reachable from the modelled code paths:
`ShutdownError` is built by `shutdown_impl` from a join error, `SyncError`
stands for any error a `sync_impl` run reports, and `other` for the
remaining taxonomy, none of which the verified properties inspect. -/
inductive AgentError where
  | shutdownError (msg : String)
  | syncError (msg : String)
  | other (msg : String)
deriving DecidableEq

/-- `Result::is_ok()` for the modelled results. -/
def resultOk : Except AgentError Unit → Bool
  | .ok _ => true
  | .error _ => false

/-! ## Syncer (`src/agent/src/sync/syncer.rs`) -/

/-- `SyncState` from `syncer.rs`; instants are Unix seconds as rationals. -/
structure SyncState where
  last_attempted_sync_at : ℚ
  last_synced_at : ℚ
  cooldown_ends_at : ℚ
  err_streak : ℕ
deriving DecidableEq

/-- `Syncer::trigger_sync`.  `now` stands for `Utc::now()` (the calls
within one invocation are modelled as one instant); `sync_impl` abstracts
the private network-performing `Syncer::sync_impl`, mapping the cache it
starts from to the cache as left behind and its `Result`.  In cooldown
(`now < cooldown_ends_at`) the call returns `Ok` having touched nothing;
otherwise `last_attempted_sync_at` is set, `sync_impl` runs, and on
success `last_synced_at` is set with `err_streak` reset while on failure
`err_streak` is incremented and `cooldown_ends_at` becomes
`now + calc_exp_backoff(options, err_streak)`. -/
def trigger_sync (options : CooldownOptions) (s : SyncState)
    (cache : WorkflowCache) (now : ℚ)
    (sync_impl : WorkflowCache → WorkflowCache × Except AgentError Unit) :
    SyncState × WorkflowCache × Except AgentError Unit :=
  if now < s.cooldown_ends_at then
    (s, cache, .ok ())
  else
    let s1 : SyncState := { s with last_attempted_sync_at := now }
    let r := sync_impl cache
    match r.2 with
    | .ok _ =>
        ({ s1 with last_synced_at := now, err_streak := 0 }, r.1, .ok ())
    | .error e =>
        let streak := s1.err_streak + 1
        ({ s1 with err_streak := streak,
                   cooldown_ends_at := now + calc_exp_backoff options streak },
         r.1, .error e)

/-! ## Shutdown manager (`src/agent/src/app/run.rs`) -/

/-- The workers whose handles `ShutdownManager` holds, named after its
fields (`socketServer` is the local HTTP server, `appState` the shared
application state). -/
inductive Worker where
  | tokenRefresh
  | poller
  | mqtt
  | deployer
  | relay
  | socketServer
  | appState
deriving DecidableEq

deriving instance DecidableEq for Except

/-- `ShutdownManager`, restricted to what `shutdown_impl` reads: each
handle slot holds, when registered, the value its `.await` would produce
(a join error is a string; the socket server task itself returns a
`Result<(), AgentError>`, and the application-state slot carries the
result of `state.shutdown()` — `state_handle.await` yields `()` and
cannot fail). -/
structure ShutdownMgr where
  app_state : Option (Except AgentError Unit)
  socket_server_handle : Option (Except String (Except AgentError Unit))
  poller_worker_handle : Option (Except String Unit)
  mqtt_worker_handle : Option (Except String Unit)
  deployer_worker_handle : Option (Except String Unit)
  relay_worker_handle : Option (Except String Unit)
  token_refresh_worker_handle : Option (Except String Unit)
deriving DecidableEq

/-- One `if let Some(handle) = slot.take() { handle.await.map_err(…)? }`
step of `shutdown_impl`, in continuation-passing form: `k` is the rest of
the sequence, and a join error drops it, exactly as `?` returns early. -/
def joinWorker (w : Worker) (h : Option (Except String Unit))
    (k : List Worker × Except AgentError Unit) :
    List Worker × Except AgentError Unit :=
  match h with
  | none => k
  | some (.ok _) => (w :: k.1, k.2)
  | some (.error e) => ([w], .error (.shutdownError e))

/-- The socket-server step of `shutdown_impl`
(`handle.await.map_err(…)??`): an outer join error or an inner
`AgentError` both return early. -/
def joinSocket (h : Option (Except String (Except AgentError Unit)))
    (k : List Worker × Except AgentError Unit) :
    List Worker × Except AgentError Unit :=
  match h with
  | none => k
  | some (.error e) => ([.socketServer], .error (.shutdownError e))
  | some (.ok (.error ae)) => ([.socketServer], .error ae)
  | some (.ok (.ok _)) => (.socketServer :: k.1, k.2)

/-- The application-state step of `shutdown_impl`
(`app_state.state.shutdown().await?; app_state.state_handle.await`). -/
def joinAppState (h : Option (Except AgentError Unit)) :
    List Worker × Except AgentError Unit :=
  match h with
  | none => ([], .ok ())
  | some (.error ae) => ([.appState], .error ae)
  | some (.ok _) => ([.appState], .ok ())

/-- `ShutdownManager::shutdown_impl`: joins the registered handles in the
source's order — token-refresh, poller, MQTT, deployer, relay, socket
server, application state — returning the workers joined, in order, and
the overall `Result` with `?` early-return semantics. -/
def shutdown_impl (m : ShutdownMgr) : List Worker × Except AgentError Unit :=
  joinWorker .tokenRefresh m.token_refresh_worker_handle
    (joinWorker .poller m.poller_worker_handle
      (joinWorker .mqtt m.mqtt_worker_handle
        (joinWorker .deployer m.deployer_worker_handle
          (joinWorker .relay m.relay_worker_handle
            (joinSocket m.socket_server_handle
              (joinAppState m.app_state))))))

/-- Whether a worker's handle slot is registered (`Some`). -/
def ShutdownMgr.registered (m : ShutdownMgr) : Worker → Bool
  | .tokenRefresh => m.token_refresh_worker_handle.isSome
  | .poller => m.poller_worker_handle.isSome
  | .mqtt => m.mqtt_worker_handle.isSome
  | .deployer => m.deployer_worker_handle.isSome
  | .relay => m.relay_worker_handle.isSome
  | .socketServer => m.socket_server_handle.isSome
  | .appState => m.app_state.isSome

/-- A plain join slot that is absent or joins cleanly. -/
def okJoin : Option (Except String Unit) → Bool
  | none => true
  | some (.ok _) => true
  | some (.error _) => false

/-- The socket-server slot is absent or joins cleanly with an `Ok` task
result. -/
def okSocket : Option (Except String (Except AgentError Unit)) → Bool
  | none => true
  | some (.ok (.ok _)) => true
  | _ => false

/-- The application-state slot is absent or its `shutdown()` succeeded. -/
def okApp : Option (Except AgentError Unit) → Bool
  | none => true
  | some (.ok _) => true
  | some (.error _) => false

/-- Every registered handle joins cleanly (and the socket server's and
application state's own results are `Ok`). -/
def ShutdownMgr.allOk (m : ShutdownMgr) : Bool :=
  okJoin m.token_refresh_worker_handle && okJoin m.poller_worker_handle &&
    okJoin m.mqtt_worker_handle && okJoin m.deployer_worker_handle &&
    okJoin m.relay_worker_handle && okSocket m.socket_server_handle &&
    okApp m.app_state

/-- The fixed join order of `shutdown_impl` in the source. -/
def joinOrder : List Worker :=
  [.tokenRefresh, .poller, .mqtt, .deployer, .relay, .socketServer, .appState]

/-! ## Base64 (`base64` crate `STANDARD` engine, as used by
`src/agent/src/filesys/relay.rs`) -/

/-- The index of a character in the standard Base64 alphabet
(`A..Z a..z 0..9 + /`), `none` for anything else. -/
def decodeChar (ch : Char) : Option ℕ :=
  let n := ch.toNat
  if 65 ≤ n ∧ n ≤ 90 then some (n - 65)
  else if 97 ≤ n ∧ n ≤ 122 then some (n - 97 + 26)
  else if 48 ≤ n ∧ n ≤ 57 then some (n - 48 + 52)
  else if n = 43 then some 62
  else if n = 47 then some 63
  else none

/-- The character of the standard Base64 alphabet at a sextet index. -/
def b64Char (n : ℕ) : Char :=
  if n < 26 then Char.ofNat (65 + n)
  else if n < 52 then Char.ofNat (97 + (n - 26))
  else if n < 62 then Char.ofNat (48 + (n - 52))
  else if n = 62 then Char.ofNat 43
  else Char.ofNat 47

/-- Strict decoding as performed by `BASE64.decode` with the `STANDARD`
engine: the input length must be a multiple of four, `=` padding may only
close the final quantum, and the unused low bits of the final quantum
must be zero (`decode_allow_trailing_bits` is off). -/
def decodeB64 : List Char → Option (List ℕ)
  | [] => some []
  | c0 :: c1 :: c2 :: c3 :: rest =>
    match decodeChar c0, decodeChar c1 with
    | some a, some b =>
      if c2 = Char.ofNat 61 then
        if c3 = Char.ofNat 61 ∧ rest = [] ∧ b % 16 = 0 then
          some [a * 4 + b / 16]
        else none
      else
        match decodeChar c2 with
        | some c =>
          if c3 = Char.ofNat 61 then
            if rest = [] ∧ c % 4 = 0 then
              some [a * 4 + b / 16, b % 16 * 16 + c / 4]
            else none
          else
            match decodeChar c3, decodeB64 rest with
            | some d, some bytes =>
                some ((a * 4 + b / 16) :: (b % 16 * 16 + c / 4) ::
                      (c % 4 * 64 + d) :: bytes)
            | _, _ => none
        | none => none
    | _, _ => none
  | _ => none

/-- Padded encoding as performed by `BASE64.encode` with the `STANDARD`
engine. -/
def encodeB64 : List ℕ → List Char
  | [] => []
  | [b0] => [b64Char (b0 / 4), b64Char (b0 % 4 * 16), Char.ofNat 61,
             Char.ofNat 61]
  | [b0, b1] => [b64Char (b0 / 4), b64Char (b0 % 4 * 16 + b1 / 16),
                 b64Char (b1 % 16 * 4), Char.ofNat 61]
  | b0 :: b1 :: b2 :: rest =>
      b64Char (b0 / 4) :: b64Char (b0 % 4 * 16 + b1 / 16) ::
        b64Char (b1 % 16 * 4 + b2 / 64) :: b64Char (b2 % 64) ::
        encodeB64 rest

/-! ## Relay file operations (`src/agent/src/filesys/relay.rs`) -/

/-- The file system a relay command touches: paths to byte contents.  An
association list with unique keys models it; directory creation
(`create_dir_all` on the parent) has no observable effect on the
path-to-content view and is not modelled. -/
def FileSys : Type := List (String × List ℕ)

/-- The contents at a path. -/
def lookupFile (fs : FileSys) (path : String) : Option (List ℕ) :=
  (fs.find? (fun p => p.1 == path)).map (fun p => p.2)

/-- Store contents at a path, replacing what was there. -/
def setFile (fs : FileSys) (path : String) (bytes : List ℕ) : FileSys :=
  fs.filter (fun p => p.1 != path) ++ [(path, bytes)]

/-- `write_file(path, content_b64)` from `relay.rs`: decode the Base64
payload (a decode failure is the `ValidationError` return, modelled as
`none`) and write the bytes. -/
def write_file (fs : FileSys) (path : String) (content_b64 : String) :
    Option FileSys :=
  match decodeB64 content_b64.toList with
  | none => none
  | some bytes => some (setFile fs path bytes)

/-- `read_file(path)` from `relay.rs`: the file's bytes, Base64-encoded
(`none` models the `Err` on a missing file). -/
def read_file (fs : FileSys) (path : String) : Option String :=
  (lookupFile fs path).map (fun bytes => String.mk (encodeB64 bytes))

/-! ## Concrete inputs used by witnesses and counterexamples -/

/-- A workflow shaped like `create_test_workflow` in
`tests/unit/test_cache.rs`. -/
def testWorkflow (id name : String) : Workflow :=
  { id := id, name := name, description := none, owner_id := "test-owner",
    status := .active, graph_data := { nodes := [], edges := [] },
    logic_hash := some "test-hash",
    created_at := "2025-01-01T00:00:00Z",
    updated_at := "2025-01-01T00:00:00Z" }

/-- A capacity-2 cache holding `wf-1` cached at 100 and `wf-2` cached at
101 (the eviction scenario of the spec). -/
def cacheC6 : WorkflowCache :=
  { entries := [("wf-1", { workflow := testWorkflow "wf-1" "Workflow 1",
                           digest := "d1", cached_at := 100 }),
                ("wf-2", { workflow := testWorkflow "wf-2" "Workflow 2",
                           digest := "d2", cached_at := 101 })],
    capacity := 2 }

/-- A full capacity-2 cache where the already-present key `wf-a` is not
the entry with minimal `cached_at` (`wf-b` is older). -/
def cacheC10 : WorkflowCache :=
  { entries := [("wf-a", { workflow := testWorkflow "wf-a" "Workflow A",
                           digest := "da", cached_at := 5 }),
                ("wf-b", { workflow := testWorkflow "wf-b" "Workflow B",
                           digest := "db", cached_at := 3 })],
    capacity := 2 }

/-- A `sync_impl` run that fails with a network error, leaving the cache
as it found it. -/
def failSync : WorkflowCache → WorkflowCache × Except AgentError Unit :=
  fun c => (c, .error (.syncError "network error"))

/-- A manager whose token-refresh worker's join fails while the poller
worker is registered and would join cleanly. -/
def mgrC2 : ShutdownMgr :=
  { app_state := none, socket_server_handle := none,
    poller_worker_handle := some (.ok ()),
    mqtt_worker_handle := none, deployer_worker_handle := none,
    relay_worker_handle := none,
    token_refresh_worker_handle := some (.error "join error") }

/-- A manager with every handle registered and joining cleanly. -/
def mgrAll : ShutdownMgr :=
  { app_state := some (.ok ()), socket_server_handle := some (.ok (.ok ())),
    poller_worker_handle := some (.ok ()),
    mqtt_worker_handle := some (.ok ()),
    deployer_worker_handle := some (.ok ()),
    relay_worker_handle := some (.ok ()),
    token_refresh_worker_handle := some (.ok ()) }

/-- Like `mgrAll` but without an MQTT worker, matching the six workers the
spec lists. -/
def mgrSix : ShutdownMgr :=
  { app_state := some (.ok ()), socket_server_handle := some (.ok (.ok ())),
    poller_worker_handle := some (.ok ()),
    mqtt_worker_handle := none,
    deployer_worker_handle := some (.ok ()),
    relay_worker_handle := some (.ok ()),
    token_refresh_worker_handle := some (.ok ()) }

/-! ## Helper lemmas -/

theorem minEntry_eq_none (l : List (String × WorkflowCacheEntry))
    (h : minEntry l = none) : l = [] := by
  cases l with
  | nil => rfl
  | cons q rest =>
    simp only [minEntry] at h
    cases hm : minEntry rest with
    | none => simp [hm] at h
    | some r =>
      simp only [hm] at h
      split at h <;> simp_all

theorem minEntry_mem (l : List (String × WorkflowCacheEntry))
    (p : String × WorkflowCacheEntry) (h : minEntry l = some p) : p ∈ l := by
  induction l generalizing p with
  | nil => simp [minEntry] at h
  | cons q rest ih =>
    simp only [minEntry] at h
    cases hm : minEntry rest with
    | none =>
      simp only [hm] at h
      injection h with h; subst h
      exact List.mem_cons_self q rest
    | some r =>
      simp only [hm] at h
      split at h
      · injection h with h; subst h
        exact List.mem_cons_of_mem q (ih r hm)
      · injection h with h; subst h
        exact List.mem_cons_self q rest

theorem minEntry_le (l : List (String × WorkflowCacheEntry))
    (p : String × WorkflowCacheEntry) (h : minEntry l = some p) :
    ∀ q ∈ l, p.2.cached_at ≤ q.2.cached_at := by
  induction l generalizing p with
  | nil => simp [minEntry] at h
  | cons q rest ih =>
    simp only [minEntry] at h
    cases hm : minEntry rest with
    | none =>
      simp only [hm] at h
      injection h with h; subst h
      have hrest : rest = [] := minEntry_eq_none rest hm
      subst hrest
      intro x hx
      rcases List.mem_cons.mp hx with rfl | hx
      · exact le_refl _
      · simp at hx
    | some r =>
      simp only [hm] at h
      split at h
      · injection h with h; subst h
        intro x hx
        rcases List.mem_cons.mp hx with rfl | hx
        · exact le_of_lt (by assumption)
        · exact ih r hm x hx
      · injection h with h; subst h
        intro x hx
        rcases List.mem_cons.mp hx with rfl | hx
        · exact le_refl _
        · exact le_trans (not_lt.mp (by assumption)) (ih r hm x hx)

theorem minEntry_isSome (l : List (String × WorkflowCacheEntry))
    (h : l ≠ []) : ∃ p, minEntry l = some p := by
  cases l with
  | nil => exact absurd rfl h
  | cons q rest =>
    simp only [minEntry]
    cases minEntry rest with
    | none => exact ⟨q, rfl⟩
    | some r =>
      by_cases hlt : r.2.cached_at < q.2.cached_at
      · exact ⟨r, if_pos hlt⟩
      · exact ⟨q, if_neg hlt⟩

theorem length_eraseEntry_le (k : String)
    (l : List (String × WorkflowCacheEntry)) :
    (eraseEntry k l).length ≤ l.length :=
  List.length_filter_le _ l

theorem length_eraseEntry_lt (k : String)
    (l : List (String × WorkflowCacheEntry))
    (e : WorkflowCacheEntry) (h : (k, e) ∈ l) :
    (eraseEntry k l).length < l.length := by
  apply List.length_filter_lt_length_iff_exists.mpr
  exact ⟨(k, e), h, by simp⟩

/-! ## Claim theorems -/

/-- C1: from a fresh FSM (`Pending`, no error, retry 0), the event
sequence `[Deploy, DeployFailed e1, Deploy, DeployFailed e2]` succeeds at
every step and ends in `Failed` with error `e2` and `retry_count` 2,
where `can_retry 3` is true and `can_retry 2` is false. -/
theorem C1_fsm_retry_trace :
    (DeploymentFsm.new.processAll
        [.deploy, .deployFailed "e1", .deploy, .deployFailed "e2"]).map
        (fun f => (f.state, f.error, f.retry_count, f.can_retry 3, f.can_retry 2))
      = some (.failed, some "e2", 2, true, false) := by
  rfl

/-- C9: whenever `process` reports an invalid transition, the machine is
left entirely unchanged — state, error and retry count keep their values. -/
theorem C9_invalid_transition_frame (f : DeploymentFsm)
    (e : DeploymentEvent) (msg : String)
    (h : (f.process e).2 = .error msg) : (f.process e).1 = f := by
  obtain ⟨s, err, rc⟩ := f
  cases s <;> cases e <;> simp_all [DeploymentFsm.process]

/-- Witness for C9: `Start` is invalid in `Pending`, and the machine is
unchanged by the failed call. -/
theorem C9_invalid_transition_frame_witness :
    (DeploymentFsm.new.process .start).2 =
        .error "Invalid transition: Pending -> Start" ∧
    (DeploymentFsm.new.process .start).1 = DeploymentFsm.new :=
  ⟨rfl, C9_invalid_transition_frame DeploymentFsm.new .start
    "Invalid transition: Pending -> Start" rfl⟩

/-- C5 (amended): for non-negative options and every attempt below
`2 ^ 31` — where the `u32` to `i32` cast does not wrap — the backoff is
`min max_delay (base_delay * multiplier ^ attempt)`; for every attempt
whatsoever it stays between 0 and `max_delay`; at the default options
the values at attempts 0, 1, 2 and 10 are 1 s, 2 s, 4 s and 300 s
(capped). -/
theorem C5_backoff_formula (o : CooldownOptions) (a : ℕ)
    (hb : 0 ≤ o.base_delay) (hm : 0 ≤ o.multiplier) (hx : 0 ≤ o.max_delay) :
    (a < 2 ^ 31 →
      calc_exp_backoff o a = min o.max_delay (o.base_delay * o.multiplier ^ a)) ∧
    0 ≤ calc_exp_backoff o a ∧
    calc_exp_backoff o a ≤ o.max_delay ∧
    calc_exp_backoff CooldownOptions.default 0 = 1 ∧
    calc_exp_backoff CooldownOptions.default 1 = 2 ∧
    calc_exp_backoff CooldownOptions.default 2 = 4 ∧
    calc_exp_backoff CooldownOptions.default 10 = 300 := by
  refine ⟨?_, ?_, min_le_right _ _, ?_, ?_, ?_, ?_⟩
  · intro ha
    have h1 : a % 2 ^ 32 = a := Nat.mod_eq_of_lt (by omega)
    simp only [calc_exp_backoff, h1, if_pos ha, zpow_natCast]
    exact min_comm _ _
  · exact le_min (mul_nonneg hb (zpow_nonneg hm _)) hx
  all_goals norm_num [calc_exp_backoff, CooldownOptions.default]

/-- Counterexample to C5 as stated: at `attempt = u32::MAX = 4294967295`
the cast `as i32` wraps to `-1`, so the program computes
`min(300, 1 * 2⁻¹) = 1/2 s` while the claimed for-every-attempt formula
gives `min(300, 1 * 2^4294967295) = 300 s`. -/
theorem C5_counterexample :
    calc_exp_backoff CooldownOptions.default 4294967295 = 1 / 2 ∧
    min CooldownOptions.default.max_delay
        (CooldownOptions.default.base_delay *
          CooldownOptions.default.multiplier ^ (4294967295 : ℕ)) = 300 ∧
    (1 / 2 : ℚ) ≠ 300 := by
  refine ⟨?_, ?_, by norm_num⟩
  · norm_num [calc_exp_backoff, CooldownOptions.default]
  · have h2 : (300 : ℚ) ≤ 2 ^ (4294967295 : ℕ) :=
      calc (300 : ℚ) ≤ 2 ^ 9 := by norm_num
        _ ≤ 2 ^ (4294967295 : ℕ) :=
            pow_le_pow_right₀ (by norm_num) (by norm_num)
    simp only [CooldownOptions.default, one_mul]
    exact min_eq_left h2

/-- Witness for C5 (amended) at the default options and attempt 5
(`min 300 (1 * 2 ^ 5) = 32`). -/
theorem C5_backoff_formula_witness :
    (0 ≤ CooldownOptions.default.base_delay ∧
     0 ≤ CooldownOptions.default.multiplier ∧
     0 ≤ CooldownOptions.default.max_delay) ∧
    ((5 < 2 ^ 31 →
      calc_exp_backoff CooldownOptions.default 5 =
        min CooldownOptions.default.max_delay
          (CooldownOptions.default.base_delay *
            CooldownOptions.default.multiplier ^ 5)) ∧
     0 ≤ calc_exp_backoff CooldownOptions.default 5 ∧
     calc_exp_backoff CooldownOptions.default 5 ≤
        CooldownOptions.default.max_delay ∧
     calc_exp_backoff CooldownOptions.default 0 = 1 ∧
     calc_exp_backoff CooldownOptions.default 1 = 2 ∧
     calc_exp_backoff CooldownOptions.default 2 = 4 ∧
     calc_exp_backoff CooldownOptions.default 10 = 300) :=
  ⟨⟨by norm_num [CooldownOptions.default], by norm_num [CooldownOptions.default],
    by norm_num [CooldownOptions.default]⟩,
   C5_backoff_formula CooldownOptions.default 5
     (by norm_num [CooldownOptions.default])
     (by norm_num [CooldownOptions.default])
     (by norm_num [CooldownOptions.default])⟩

/-- C4: a `trigger_sync` call made during cooldown returns `Ok` and
changes nothing — the sync state keeps every field and the cache keeps
its contents, whatever `sync_impl` would have done. -/
theorem C4_cooldown_noop (options : CooldownOptions) (s : SyncState)
    (cache : WorkflowCache) (now : ℚ)
    (imp : WorkflowCache → WorkflowCache × Except AgentError Unit)
    (h : now < s.cooldown_ends_at) :
    trigger_sync options s cache now imp = (s, cache, .ok ()) := by
  simp [trigger_sync, h]

/-- Witness for C4: in cooldown until 5, a call at time 1 with a failing
`sync_impl` is a no-op. -/
theorem C4_cooldown_noop_witness :
    (1 : ℚ) < (⟨0, 0, 5, 2⟩ : SyncState).cooldown_ends_at ∧
    trigger_sync CooldownOptions.default ⟨0, 0, 5, 2⟩ (WorkflowCache.new 10)
        1 failSync = (⟨0, 0, 5, 2⟩, WorkflowCache.new 10, .ok ()) :=
  ⟨by norm_num, C4_cooldown_noop CooldownOptions.default ⟨0, 0, 5, 2⟩
    (WorkflowCache.new 10) 1 failSync (by norm_num)⟩

/-- C3 (amended): with the default cooldown options, a first consecutive
failure (`err_streak` was 0, not in cooldown) leaves `err_streak = 1` and
`cooldown_ends_at = now + 2` — the backoff is evaluated at
`attempt = err_streak = 1` after the increment, giving
`base_delay * multiplier = 2 s`, not the 1 s base delay. -/
theorem C3_first_failure_cooldown (s : SyncState) (cache : WorkflowCache)
    (now : ℚ) (e : AgentError)
    (imp : WorkflowCache → WorkflowCache × Except AgentError Unit)
    (hstreak : s.err_streak = 0)
    (hcool : ¬ now < s.cooldown_ends_at)
    (hfail : (imp cache).2 = .error e) :
    (trigger_sync CooldownOptions.default s cache now imp).1.err_streak = 1 ∧
    (trigger_sync CooldownOptions.default s cache now imp).1.cooldown_ends_at
      = now + 2 := by
  have hcalc : calc_exp_backoff CooldownOptions.default 1 = 2 := by
    norm_num [calc_exp_backoff, CooldownOptions.default]
  simp [trigger_sync, hcool, hfail, hstreak, hcalc]

/-- Witness for C3 (amended): concrete first failure at time 1000 yields
streak 1 and cooldown end 1002. -/
theorem C3_first_failure_cooldown_witness :
    ((⟨0, 0, 0, 0⟩ : SyncState).err_streak = 0 ∧
     ¬ (1000 : ℚ) < (⟨0, 0, 0, 0⟩ : SyncState).cooldown_ends_at ∧
     (failSync (WorkflowCache.new 10)).2 = .error (.syncError "network error")) ∧
    ((trigger_sync CooldownOptions.default ⟨0, 0, 0, 0⟩ (WorkflowCache.new 10)
        1000 failSync).1.err_streak = 1 ∧
     (trigger_sync CooldownOptions.default ⟨0, 0, 0, 0⟩ (WorkflowCache.new 10)
        1000 failSync).1.cooldown_ends_at = 1000 + 2) :=
  ⟨⟨rfl, by norm_num, rfl⟩,
   C3_first_failure_cooldown ⟨0, 0, 0, 0⟩ (WorkflowCache.new 10) 1000
     (.syncError "network error") failSync rfl (by norm_num) rfl⟩

/-- Counterexample to C3 as stated: at the concrete first failure at time
1000 the cooldown ends at 1002, not at `now + 1 = 1001` — the
first-failure cooldown is 2 s, not the 1 s base delay. -/
theorem C3_counterexample :
    (trigger_sync CooldownOptions.default ⟨0, 0, 0, 0⟩ (WorkflowCache.new 10)
        1000 failSync).1.cooldown_ends_at = 1002 ∧
    (trigger_sync CooldownOptions.default ⟨0, 0, 0, 0⟩ (WorkflowCache.new 10)
        1000 failSync).1.cooldown_ends_at ≠ 1001 := by
  constructor <;> norm_num [trigger_sync, failSync, calc_exp_backoff,
    CooldownOptions.default]

theorem resultOk_joinWorker (w : Worker) (h : Option (Except String Unit))
    (k : List Worker × Except AgentError Unit) :
    resultOk (joinWorker w h k).2 = (okJoin h && resultOk k.2) := by
  cases h with
  | none => rfl
  | some v => cases v with
    | ok u => rfl
    | error e => rfl

theorem resultOk_joinSocket (h : Option (Except String (Except AgentError Unit)))
    (k : List Worker × Except AgentError Unit) :
    resultOk (joinSocket h k).2 = (okSocket h && resultOk k.2) := by
  cases h with
  | none => rfl
  | some v =>
    cases v with
    | ok r => cases r with
      | ok u => rfl
      | error ae => rfl
    | error e => rfl

theorem resultOk_joinAppState (h : Option (Except AgentError Unit)) :
    resultOk (joinAppState h).2 = okApp h := by
  cases h with
  | none => rfl
  | some v => cases v with
    | ok u => rfl
    | error ae => rfl

theorem all_joinWorker (p : Worker → Bool) (w : Worker)
    (h : Option (Except String Unit))
    (k : List Worker × Except AgentError Unit)
    (hw : h.isSome = true → p w = true) (hk : k.1.all p = true) :
    (joinWorker w h k).1.all p = true := by
  cases h with
  | none => exact hk
  | some v => cases v with
    | ok u => simp [joinWorker, hw rfl, hk]
    | error e => simp [joinWorker, hw rfl]

theorem all_joinSocket (p : Worker → Bool)
    (h : Option (Except String (Except AgentError Unit)))
    (k : List Worker × Except AgentError Unit)
    (hw : h.isSome = true → p .socketServer = true) (hk : k.1.all p = true) :
    (joinSocket h k).1.all p = true := by
  cases h with
  | none => exact hk
  | some v =>
    cases v with
    | ok r => cases r with
      | ok u => simp [joinSocket, hw rfl, hk]
      | error ae => simp [joinSocket, hw rfl]
    | error e => simp [joinSocket, hw rfl]

theorem all_joinAppState (p : Worker → Bool)
    (h : Option (Except AgentError Unit))
    (hw : h.isSome = true → p .appState = true) :
    (joinAppState h).1.all p = true := by
  cases h with
  | none => rfl
  | some v => cases v with
    | ok u => simp [joinAppState, hw rfl]
    | error ae => simp [joinAppState, hw rfl]

theorem okJoin_cases (h : Option (Except String Unit))
    (hok : okJoin h = true) : h = none ∨ h = some (.ok ()) := by
  cases h with
  | none => exact Or.inl rfl
  | some v => cases v with
    | ok u => exact Or.inr rfl
    | error e => simp [okJoin] at hok

theorem okSocket_cases (h : Option (Except String (Except AgentError Unit)))
    (hok : okSocket h = true) : h = none ∨ h = some (.ok (.ok ())) := by
  cases h with
  | none => exact Or.inl rfl
  | some v =>
    cases v with
    | ok r => cases r with
      | ok u => exact Or.inr rfl
      | error ae => simp [okSocket] at hok
    | error e => simp [okSocket] at hok

theorem okApp_cases (h : Option (Except AgentError Unit))
    (hok : okApp h = true) : h = none ∨ h = some (.ok ()) := by
  cases h with
  | none => exact Or.inl rfl
  | some v => cases v with
    | ok u => exact Or.inr rfl
    | error ae => simp [okApp] at hok

/-- C2 (amended): a join error during shutdown aborts the rest of the
sequence rather than being collected; the overall shutdown returns
success exactly when every registered worker's join — and the local
server's and application state's own shutdown results — succeeded, and
only registered workers are ever joined. -/
theorem C2_shutdown_result (m : ShutdownMgr) :
    resultOk (shutdown_impl m).2 = m.allOk ∧
    (shutdown_impl m).1.all m.registered = true := by
  constructor
  · rw [shutdown_impl, resultOk_joinWorker, resultOk_joinWorker,
      resultOk_joinWorker, resultOk_joinWorker, resultOk_joinWorker,
      resultOk_joinSocket, resultOk_joinAppState, ShutdownMgr.allOk]
    cases okJoin m.token_refresh_worker_handle <;>
      cases okJoin m.poller_worker_handle <;>
      cases okJoin m.mqtt_worker_handle <;>
      cases okJoin m.deployer_worker_handle <;>
      cases okJoin m.relay_worker_handle <;>
      cases okSocket m.socket_server_handle <;>
      cases okApp m.app_state <;> rfl
  · rw [shutdown_impl]
    apply all_joinWorker
    · intro hs; simp [ShutdownMgr.registered, hs]
    apply all_joinWorker
    · intro hs; simp [ShutdownMgr.registered, hs]
    apply all_joinWorker
    · intro hs; simp [ShutdownMgr.registered, hs]
    apply all_joinWorker
    · intro hs; simp [ShutdownMgr.registered, hs]
    apply all_joinWorker
    · intro hs; simp [ShutdownMgr.registered, hs]
    apply all_joinSocket
    · intro hs; simp [ShutdownMgr.registered, hs]
    apply all_joinAppState
    intro hs; simp [ShutdownMgr.registered, hs]

/-- Counterexample to C2 as stated: in `mgrC2` the token-refresh join
fails while the poller worker is registered, yet the poller is never
joined — the join error aborts the sequence instead of being collected. -/
theorem C2_counterexample :
    mgrC2.registered Worker.poller = true ∧
    Worker.poller ∉ (shutdown_impl mgrC2).1 ∧
    (shutdown_impl mgrC2).1 = [Worker.tokenRefresh] := by
  refine ⟨rfl, ?_, rfl⟩
  decide

/-- C8 (amended): when every registered join succeeds, `shutdown_impl`
joins exactly the registered workers, in the fixed order token-refresh,
poller, MQTT, deployer, relay, local HTTP server, application state —
the deployer is joined before the relay, and a registered MQTT worker
between poller and deployer. -/
theorem C8_join_order (m : ShutdownMgr) (h : m.allOk = true) :
    (shutdown_impl m).1 = joinOrder.filter m.registered := by
  obtain ⟨app, sock, pol, mq, dep, rel, tok⟩ := m
  simp only [ShutdownMgr.allOk, Bool.and_eq_true] at h
  obtain ⟨⟨⟨⟨⟨⟨h1, h2⟩, h3⟩, h4⟩, h5⟩, h6⟩, h7⟩ := h
  rcases okJoin_cases _ h1 with rfl | rfl <;>
    rcases okJoin_cases _ h2 with rfl | rfl <;>
    rcases okJoin_cases _ h3 with rfl | rfl <;>
    rcases okJoin_cases _ h4 with rfl | rfl <;>
    rcases okJoin_cases _ h5 with rfl | rfl <;>
    rcases okSocket_cases _ h6 with rfl | rfl <;>
    rcases okApp_cases _ h7 with rfl | rfl <;> rfl

/-- Witness for C8 (amended): with every handle registered and joining
cleanly, the trace is the full fixed order. -/
theorem C8_join_order_witness :
    mgrAll.allOk = true ∧
    (shutdown_impl mgrAll).1 = joinOrder.filter mgrAll.registered ∧
    (shutdown_impl mgrAll).1 =
      [.tokenRefresh, .poller, .mqtt, .deployer, .relay, .socketServer,
       .appState] :=
  ⟨rfl, C8_join_order mgrAll rfl, rfl⟩

/-- Counterexample to C8 as stated: with the six workers the claim lists
all registered (no MQTT worker) and joining cleanly, the deployer is
joined before the relay, so the trace differs from the claimed order
token-refresh, poller, relay, deployer, server, application state. -/
theorem C8_counterexample :
    (shutdown_impl mgrSix).1 =
      [Worker.tokenRefresh, .poller, .deployer, .relay, .socketServer,
       .appState] ∧
    (shutdown_impl mgrSix).1 ≠
      [Worker.tokenRefresh, .poller, .relay, .deployer, .socketServer,
       .appState] := by
  refine ⟨rfl, ?_⟩
  decide

theorem eraseEntry_eq_self (k : String)
    (l : List (String × WorkflowCacheEntry))
    (h : k ∉ l.map Prod.fst) : eraseEntry k l = l := by
  apply List.filter_eq_self.mpr
  intro x hx
  simp only [bne_iff_ne, ne_eq]
  intro hk
  exact h (List.mem_map.mpr ⟨x, hx, hk⟩)

theorem length_eraseEntry_nodup (k : String)
    (l : List (String × WorkflowCacheEntry))
    (hnodup : (l.map Prod.fst).Nodup) (hmem : k ∈ l.map Prod.fst) :
    (eraseEntry k l).length + 1 = l.length := by
  induction l with
  | nil => simp at hmem
  | cons a rest ih =>
    simp only [List.map_cons, List.nodup_cons] at hnodup
    rcases List.mem_cons.mp hmem with hk | hk
    · subst hk
      have h1 : eraseEntry a.1 (a :: rest) = eraseEntry a.1 rest := by
        simp [eraseEntry, List.filter]
      rw [h1, eraseEntry_eq_self a.1 rest hnodup.1]
      simp
    · have hak : a.1 ≠ k := by
        intro he; exact hnodup.1 (he ▸ hk)
      have hbne : (a.1 != k) = true := by simp [hak]
      have h1 : eraseEntry k (a :: rest) = a :: eraseEntry k rest := by
        simp [eraseEntry, List.filter, hbne]
      rw [h1]
      simp only [List.length_cons]
      rw [← ih hnodup.2 hk]

theorem keys_nodup_eraseEntry (k : String)
    (l : List (String × WorkflowCacheEntry))
    (hnodup : (l.map Prod.fst).Nodup) :
    ((eraseEntry k l).map Prod.fst).Nodup :=
  ((List.filter_sublist l).map Prod.fst).nodup hnodup

theorem mem_keys_eraseEntry (k k2 : String)
    (l : List (String × WorkflowCacheEntry))
    (hne : k2 ≠ k) (hmem : k2 ∈ l.map Prod.fst) :
    k2 ∈ (eraseEntry k l).map Prod.fst := by
  obtain ⟨x, hx, hxk⟩ := List.mem_map.mp hmem
  apply List.mem_map.mpr
  refine ⟨x, ?_, hxk⟩
  apply List.mem_filter.mpr
  exact ⟨hx, by simp [hxk, hne]⟩

theorem find?_key_eraseEntry (k : String)
    (l2 l : List (String × WorkflowCacheEntry))
    (hsub : l2.Sublist (eraseEntry k l)) :
    l2.find? (fun p => p.1 == k) = none := by
  rw [List.find?_eq_none]
  intro x hx
  have hx2 : x ∈ eraseEntry k l := hsub.mem hx
  have := (List.mem_filter.mp hx2).2
  simpa using this

/-- C6: with capacity at least 1 and the cache within capacity, an
`insert` on a full cache first removes a minimal-`cached_at` entry and
then stores the new one, and the length never exceeds the capacity. -/
theorem C6_insert_eviction_bound (c : WorkflowCache) (w : Workflow)
    (d : String) (now : ℕ)
    (hcap : 1 ≤ c.capacity) (hlen : c.len ≤ c.capacity) :
    (c.capacity ≤ c.len →
      ∃ p, minEntry c.entries = some p ∧ p ∈ c.entries ∧
        (∀ q ∈ c.entries, p.2.cached_at ≤ q.2.cached_at) ∧
        (c.insert w d now).entries =
          eraseEntry w.id (eraseEntry p.1 c.entries) ++
            [(w.id, { workflow := w, digest := d, cached_at := now })]) ∧
    (c.insert w d now).len ≤ c.capacity := by
  constructor
  · intro hfull
    have hne : c.entries ≠ [] := by
      intro he
      rw [WorkflowCache.len, he] at hfull
      simp at hfull
      omega
    obtain ⟨p, hp⟩ := minEntry_isSome c.entries hne
    refine ⟨p, hp, minEntry_mem c.entries p hp, minEntry_le c.entries p hp, ?_⟩
    rw [WorkflowCache.insert]
    rw [WorkflowCache.len] at hfull
    simp [if_pos hfull, hp]
  · by_cases hfull : c.capacity ≤ c.entries.length
    · have hne : c.entries ≠ [] := by
        intro he
        rw [he] at hfull
        simp at hfull
        omega
      obtain ⟨p, hp⟩ := minEntry_isSome c.entries hne
      obtain ⟨k, e⟩ := p
      have hpmem : (k, e) ∈ c.entries := minEntry_mem c.entries (k, e) hp
      have h1 : (eraseEntry k c.entries).length < c.entries.length :=
        length_eraseEntry_lt k c.entries e hpmem
      have h2 : (eraseEntry w.id (eraseEntry k c.entries)).length ≤
          (eraseEntry k c.entries).length :=
        length_eraseEntry_le w.id (eraseEntry k c.entries)
      rw [WorkflowCache.insert, WorkflowCache.len] at *
      simp only [if_pos hfull, hp, List.length_append, List.length_singleton]
      omega
    · have h2 : (eraseEntry w.id c.entries).length ≤ c.entries.length :=
        length_eraseEntry_le w.id c.entries
      rw [WorkflowCache.insert, WorkflowCache.len] at *
      simp only [if_neg hfull, List.length_append, List.length_singleton]
      omega

/-- Witness for C6: inserting `wf-3` into the full capacity-2 cache
evicts the oldest entry (`wf-1`, cached at 100) and keeps the length at
the capacity. -/
theorem C6_insert_eviction_bound_witness :
    (1 ≤ cacheC6.capacity ∧ cacheC6.len ≤ cacheC6.capacity) ∧
    ((cacheC6.capacity ≤ cacheC6.len →
      ∃ p, minEntry cacheC6.entries = some p ∧ p ∈ cacheC6.entries ∧
        (∀ q ∈ cacheC6.entries, p.2.cached_at ≤ q.2.cached_at) ∧
        (cacheC6.insert (testWorkflow "wf-3" "Workflow 3") "d3" 102).entries =
          eraseEntry (testWorkflow "wf-3" "Workflow 3").id
              (eraseEntry p.1 cacheC6.entries) ++
            [((testWorkflow "wf-3" "Workflow 3").id,
              { workflow := testWorkflow "wf-3" "Workflow 3", digest := "d3",
                cached_at := 102 })]) ∧
    (cacheC6.insert (testWorkflow "wf-3" "Workflow 3") "d3" 102).len ≤
      cacheC6.capacity) :=
  ⟨⟨by decide, by decide⟩,
   C6_insert_eviction_bound cacheC6 (testWorkflow "wf-3" "Workflow 3") "d3" 102
     (by decide) (by decide)⟩

/-- C10: inserting a workflow whose id is already a key while the cache
is exactly full still evicts the minimal-`cached_at` entry; when that
minimum is a different key, the other workflow's entry is gone, the
inserted id maps to the fresh entry, and the length drops to
`capacity - 1`. -/
theorem C10_insert_existing_key (c : WorkflowCache) (w : Workflow)
    (d : String) (now : ℕ) (p : String × WorkflowCacheEntry)
    (hlen : c.len = c.capacity)
    (hnodup : (c.entries.map Prod.fst).Nodup)
    (hmem : w.id ∈ c.entries.map Prod.fst)
    (hmin : minEntry c.entries = some p)
    (hne : p.1 ≠ w.id) :
    (c.insert w d now).get p.1 = none ∧
    (c.insert w d now).get w.id =
      some { workflow := w, digest := d, cached_at := now } ∧
    (c.insert w d now).len = c.capacity - 1 := by
  have hfull : c.capacity ≤ c.entries.length := le_of_eq hlen.symm
  have hinsert : (c.insert w d now).entries =
      eraseEntry w.id (eraseEntry p.1 c.entries) ++
        [(w.id, { workflow := w, digest := d, cached_at := now })] := by
    rw [WorkflowCache.insert]
    simp [if_pos hfull, hmin]
  refine ⟨?_, ?_, ?_⟩
  · rw [WorkflowCache.get, hinsert, List.find?_append]
    have h1 : (eraseEntry w.id (eraseEntry p.1 c.entries)).find?
        (fun q => q.1 == p.1) = none := by
      rw [List.find?_eq_none]
      intro x hx
      have hx1 : x ∈ eraseEntry p.1 c.entries := (List.mem_filter.mp hx).1
      have := (List.mem_filter.mp hx1).2
      simpa using this
    rw [h1]
    have hbe : (w.id == p.1) = false := by
      simp only [beq_eq_false_iff_ne, ne_eq]
      exact fun he => hne he.symm
    simp [List.find?, hbe]
  · rw [WorkflowCache.get, hinsert, List.find?_append]
    have h1 : (eraseEntry w.id (eraseEntry p.1 c.entries)).find?
        (fun q => q.1 == w.id) = none :=
      find?_key_eraseEntry w.id _ _ (List.Sublist.refl _)
    rw [h1]
    simp [List.find?]
  · have h1 : (eraseEntry p.1 c.entries).length + 1 = c.entries.length := by
      apply length_eraseEntry_nodup p.1 c.entries hnodup
      exact List.mem_map.mpr ⟨p, minEntry_mem c.entries p hmin, rfl⟩
    have h2 : (eraseEntry w.id (eraseEntry p.1 c.entries)).length + 1 =
        (eraseEntry p.1 c.entries).length := by
      apply length_eraseEntry_nodup w.id _ (keys_nodup_eraseEntry p.1 c.entries hnodup)
      exact mem_keys_eraseEntry p.1 w.id c.entries
        (fun he => hne he.symm) hmem
    rw [WorkflowCache.len, hinsert, List.length_append, List.length_singleton]
    rw [WorkflowCache.len] at hlen
    omega

/-- Witness for C10: re-inserting `wf-a` into the full `cacheC10` evicts
`wf-b` (the older entry), stores the fresh `wf-a` entry, and leaves one
entry — capacity minus one. -/
theorem C10_insert_existing_key_witness :
    (cacheC10.len = cacheC10.capacity ∧
     (cacheC10.entries.map Prod.fst).Nodup ∧
     (testWorkflow "wf-a" "Workflow A2").id ∈ cacheC10.entries.map Prod.fst ∧
     minEntry cacheC10.entries =
       some ("wf-b", { workflow := testWorkflow "wf-b" "Workflow B",
                       digest := "db", cached_at := 3 }) ∧
     ("wf-b" : String) ≠ (testWorkflow "wf-a" "Workflow A2").id) ∧
    ((cacheC10.insert (testWorkflow "wf-a" "Workflow A2") "da2" 10).get
        "wf-b" = none ∧
     (cacheC10.insert (testWorkflow "wf-a" "Workflow A2") "da2" 10).get
        (testWorkflow "wf-a" "Workflow A2").id =
      some { workflow := testWorkflow "wf-a" "Workflow A2", digest := "da2",
             cached_at := 10 } ∧
     (cacheC10.insert (testWorkflow "wf-a" "Workflow A2") "da2" 10).len =
       cacheC10.capacity - 1) :=
  ⟨⟨by decide, by decide, by decide, by decide, by decide⟩,
   C10_insert_existing_key cacheC10 (testWorkflow "wf-a" "Workflow A2") "da2" 10
     ("wf-b", { workflow := testWorkflow "wf-b" "Workflow B", digest := "db",
                cached_at := 3 })
     (by decide) (by decide) (by decide) (by decide) (by decide)⟩

theorem decodeChar_lt (ch : Char) (n : ℕ) (h : decodeChar ch = some n) :
    n < 64 := by
  simp only [decodeChar] at h
  split_ifs at h with h1 h2 h3 h4 h5 <;> injection h with h <;> omega

theorem b64Char_decodeChar (ch : Char) (n : ℕ) (h : decodeChar ch = some n) :
    b64Char n = ch := by
  simp only [decodeChar] at h
  split_ifs at h with h1 h2 h3 h4 h5 <;> injection h with h <;> subst h <;>
    simp only [b64Char]
  · rw [if_pos (by omega)]
    have he : 65 + (ch.toNat - 65) = ch.toNat := by omega
    rw [he, Char.ofNat_toNat]
  · rw [if_neg (by omega), if_pos (by omega)]
    have he : 97 + (ch.toNat - 97 + 26 - 26) = ch.toNat := by omega
    rw [he, Char.ofNat_toNat]
  · rw [if_neg (by omega), if_neg (by omega), if_pos (by omega)]
    have he : 48 + (ch.toNat - 48 + 52 - 52) = ch.toNat := by omega
    rw [he, Char.ofNat_toNat]
  · rw [if_neg (by omega), if_neg (by omega), if_neg (by omega),
      if_pos trivial, ← h4, Char.ofNat_toNat]
  · rw [if_neg (by omega), if_neg (by omega), if_neg (by omega),
      if_neg (by omega), ← h5, Char.ofNat_toNat]

theorem encodeB64_decodeB64 :
    ∀ (n : ℕ) (cs : List Char), cs.length ≤ n →
      ∀ bs, decodeB64 cs = some bs → encodeB64 bs = cs := by
  intro n
  induction n with
  | zero =>
    intro cs hlen bs h
    have hcs : cs = [] := List.length_eq_zero.mp (Nat.le_zero.mp hlen)
    subst hcs
    simp only [decodeB64] at h
    injection h with h
    subst h
    rfl
  | succ n ih =>
    intro cs hlen bs h
    rcases cs with _ | ⟨c0, _ | ⟨c1, _ | ⟨c2, _ | ⟨c3, rest⟩⟩⟩⟩
    · simp only [decodeB64] at h
      injection h with h
      subst h
      rfl
    · rw [show decodeB64 [c0] = none from rfl] at h; cases h
    · rw [show decodeB64 [c0, c1] = none from rfl] at h; cases h
    · rw [show decodeB64 [c0, c1, c2] = none from rfl] at h; cases h
    · simp only [decodeB64] at h
      cases ha : decodeChar c0 with
      | none => simp [ha] at h
      | some a =>
      cases hb : decodeChar c1 with
      | none => simp [ha, hb] at h
      | some b =>
      simp only [ha, hb] at h
      by_cases h2 : c2 = Char.ofNat 61
      · rw [if_pos h2] at h
        by_cases hcond : c3 = Char.ofNat 61 ∧ rest = [] ∧ b % 16 = 0
        · rw [if_pos hcond] at h
          obtain ⟨h3, hrest0, hbits⟩ := hcond
          injection h with h
          subst h
          subst h2
          subst h3
          subst hrest0
          have ha64 := decodeChar_lt c0 a ha
          have hb64 := decodeChar_lt c1 b hb
          have e1 : (a * 4 + b / 16) / 4 = a := by omega
          have e2 : (a * 4 + b / 16) % 4 * 16 = b := by omega
          simp only [encodeB64]
          rw [e1, e2, b64Char_decodeChar c0 a ha, b64Char_decodeChar c1 b hb]
        · rw [if_neg hcond] at h; cases h
      · rw [if_neg h2] at h
        cases hc : decodeChar c2 with
        | none => simp [hc] at h
        | some c =>
        simp only [hc] at h
        by_cases h3 : c3 = Char.ofNat 61
        · rw [if_pos h3] at h
          by_cases hcond : rest = [] ∧ c % 4 = 0
          · rw [if_pos hcond] at h
            obtain ⟨hrest0, hbits⟩ := hcond
            injection h with h
            subst h
            subst h3
            subst hrest0
            have ha64 := decodeChar_lt c0 a ha
            have hb64 := decodeChar_lt c1 b hb
            have hc64 := decodeChar_lt c2 c hc
            have e1 : (a * 4 + b / 16) / 4 = a := by omega
            have e2 : (a * 4 + b / 16) % 4 * 16 + (b % 16 * 16 + c / 4) / 16 = b := by
              omega
            have e3 : (b % 16 * 16 + c / 4) % 16 * 4 = c := by omega
            simp only [encodeB64]
            rw [e1, e2, e3, b64Char_decodeChar c0 a ha,
              b64Char_decodeChar c1 b hb, b64Char_decodeChar c2 c hc]
          · rw [if_neg hcond] at h; cases h
        · rw [if_neg h3] at h
          cases hd : decodeChar c3 with
          | none => simp [hd] at h
          | some d =>
          cases hrec : decodeB64 rest with
          | none => simp [hd, hrec] at h
          | some bytes =>
          simp only [hd, hrec] at h
          injection h with h
          subst h
          have ha64 := decodeChar_lt c0 a ha
          have hb64 := decodeChar_lt c1 b hb
          have hc64 := decodeChar_lt c2 c hc
          have hd64 := decodeChar_lt c3 d hd
          have hlen2 : rest.length ≤ n := by
            simp only [List.length_cons] at hlen
            omega
          have hrest2 := ih rest hlen2 bytes hrec
          have e1 : (a * 4 + b / 16) / 4 = a := by omega
          have e2 : (a * 4 + b / 16) % 4 * 16 + (b % 16 * 16 + c / 4) / 16 = b := by
            omega
          have e3 : (b % 16 * 16 + c / 4) % 16 * 4 + (c % 4 * 64 + d) / 64 = c := by
            omega
          have e4 : (c % 4 * 64 + d) % 64 = d := by omega
          simp only [encodeB64]
          rw [e1, e2, e3, e4, hrest2, b64Char_decodeChar c0 a ha,
            b64Char_decodeChar c1 b hb, b64Char_decodeChar c2 c hc,
            b64Char_decodeChar c3 d hd]

theorem lookupFile_setFile (fs : FileSys) (path : String) (bytes : List ℕ) :
    lookupFile (setFile fs path bytes) path = some bytes := by
  rw [lookupFile, setFile, List.find?_append]
  have h1 : (fs.filter (fun p => p.1 != path)).find?
      (fun p => p.1 == path) = none := by
    rw [List.find?_eq_none]
    intro x hx
    have := (List.mem_filter.mp hx).2
    simpa using this
  rw [h1]
  simp [List.find?]

/-- C7: whenever `write_file` accepts the Base64 payload for a path,
`read_file` on that path returns exactly the original Base64 string. -/
theorem C7_write_read_roundtrip (fs : FileSys) (path b64 : String)
    (fs2 : FileSys) (h : write_file fs path b64 = some fs2) :
    read_file fs2 path = some b64 := by
  rw [write_file] at h
  cases hd : decodeB64 b64.toList with
  | none => rw [hd] at h; cases h
  | some bytes =>
    rw [hd] at h
    injection h with h
    subst h
    rw [read_file, lookupFile_setFile]
    have he : encodeB64 bytes = b64.toList :=
      encodeB64_decodeB64 b64.toList.length b64.toList le_rfl bytes hd
    simp only [Option.map_some']
    rw [he]
    cases b64 with
    | mk data => rfl

/-- Witness for C7: writing `"aGVsbG8="` (the bytes of `hello`) to
`/tmp/x` on an empty filesystem and reading it back returns
`"aGVsbG8="`. -/
theorem C7_write_read_roundtrip_witness :
    write_file [] "/tmp/x" "aGVsbG8=" =
      some [("/tmp/x", [104, 101, 108, 108, 111])] ∧
    read_file [("/tmp/x", [104, 101, 108, 108, 111])] "/tmp/x" =
      some "aGVsbG8=" :=
  ⟨rfl, C7_write_read_roundtrip [] "/tmp/x" "aGVsbG8="
    [("/tmp/x", [104, 101, 108, 108, 111])] rfl⟩
